import Mathlib

/-!
Verification development for the cc-express gateway: a shallow embedding of
its protocol-translation core (OpenAI chat request flattening, backend event
extraction, response assembly for streaming and non-streaming modes),
together with theorems checking the natural-language specification against
the embedded code.

Modelling conventions:
* TypeScript objects become structures; optional fields become `Option`.
* JavaScript string truthiness (`if (s)`) is modelled as non-emptiness.
* The `Set<string>` of seen tool-call ids is modelled as a `List String`
  with membership via `List.contains`; insertion appends at the end
  (insertion order is immaterial to membership).
* The `nanoid`-based fresh-id generator is modelled as an explicit
  generator function `gen : Nat → String` together with a threaded counter.
* Wall-clock fields (`created` timestamps) are omitted from chunk and
  completion objects: they carry no information the claims talk about.
* SSE output is modelled as the list of `res.write` calls (`SSEWrite`),
  with `renderWrite` giving the exact byte string each call writes.
-/

namespace CCExpress

/-! ## JSON values and `JSON.stringify` (as used by the converters) -/

/-- A JSON value, used for tool-call `input` objects. -/
inductive Json where
  | null : Json
  | bool (b : Bool) : Json
  | num (n : Int) : Json
  | str (s : String) : Json
  | arr (xs : List Json) : Json
  | obj (fs : List (String × Json)) : Json

/-- One hexadecimal digit, lower case, as emitted by `JSON.stringify`
escape sequences. -/
def hexDigit (n : Nat) : String :=
  (["0", "1", "2", "3", "4", "5", "6", "7",
    "8", "9", "a", "b", "c", "d", "e", "f"]).getD n "0"

/-- `JSON.stringify` escaping of a single character inside a string. -/
def jsonEscapeChar (c : Char) : String :=
  if c == '"' then "\\\""
  else if c == '\\' then "\\\\"
  else if c == '\n' then "\\n"
  else if c == '\r' then "\\r"
  else if c == '\t' then "\\t"
  else if c == '\x08' then "\\b"
  else if c == '\x0c' then "\\f"
  else if c.toNat < 32 then "\\u00" ++ hexDigit (c.toNat / 16) ++ hexDigit (c.toNat % 16)
  else String.singleton c

/-- `JSON.stringify` rendering of a string literal. -/
def jsonQuote (s : String) : String :=
  "\"" ++ String.join (s.data.map jsonEscapeChar) ++ "\""

mutual

/-- `JSON.stringify` on a JSON value (keys in insertion order, no spaces). -/
def Json.stringify : Json → String
  | Json.null => "null"
  | Json.bool b => if b then "true" else "false"
  | Json.num n => toString n
  | Json.str s => jsonQuote s
  | Json.arr xs => "[" ++ stringifyArray xs ++ "]"
  | Json.obj fs => "\x7b" ++ stringifyFields fs ++ "\x7d"

/-- Comma-separated serialization of array elements. -/
def stringifyArray : List Json → String
  | [] => ""
  | [x] => Json.stringify x
  | x :: y :: xs => Json.stringify x ++ "," ++ stringifyArray (y :: xs)

/-- Comma-separated serialization of object fields. -/
def stringifyFields : List (String × Json) → String
  | [] => ""
  | [f] => jsonQuote f.1 ++ ":" ++ Json.stringify f.2
  | f :: g :: fs => jsonQuote f.1 ++ ":" ++ Json.stringify f.2 ++ "," ++ stringifyFields (g :: fs)

end

/-! ## `Array.prototype.join` -/

/-- JavaScript `array.join(sep)`. -/
def joinSep (sep : String) : List String → String
  | [] => ""
  | [x] => x
  | x :: y :: xs => x ++ sep ++ joinSep sep (y :: xs)

/-! ## OpenAI request side (src/types/openai.ts) -/

/-- One multimodal content part (`OpenAIContentPart`). -/
structure OpenAIContentPart where
  type : String
  text : Option String := none
deriving Repr, DecidableEq

/-- The `content` field of an OpenAI message: a string, an array of parts,
or `null`. -/
inductive MsgContent where
  | str (s : String) : MsgContent
  | parts (ps : List OpenAIContentPart) : MsgContent
  | null : MsgContent
deriving Repr, DecidableEq

/-- The `function` payload of an OpenAI tool call. -/
structure ToolCallFunction where
  name : String
  arguments : String
deriving Repr, DecidableEq

/-- `OpenAIToolCall` (the `type` field is the constant `"function"` and is
left implicit). -/
structure OpenAIToolCall where
  id : String
  function : ToolCallFunction
deriving Repr, DecidableEq

/-- `OpenAIMessage`. The optional `tool_calls` array is modelled with
default `[]` (absent and empty behave identically in the code). -/
structure OpenAIMessage where
  role : String
  content : MsgContent
  tool_calls : List OpenAIToolCall := []
  tool_call_id : Option String := none
deriving Repr, DecidableEq

instance : Inhabited OpenAIMessage := ⟨⟨"", MsgContent.null, [], none⟩⟩

/-- `OpenAIChatRequest` restricted to the fields the translation core
reads. -/
structure OpenAIChatRequest where
  model : Option String := none
  messages : List OpenAIMessage
  stream : Bool := false
deriving Repr, DecidableEq

/-! ## Error taxonomy (src/middleware/error-handler.ts) -/

/-- The kinds of errors the gateway raises: the `APIError` subclasses, plus
`generic` for a plain JavaScript `Error`. -/
inductive ApiErrorKind where
  | validation : ApiErrorKind
  | authentication : ApiErrorKind
  | claudeAgent : ApiErrorKind
  | generic : ApiErrorKind
deriving Repr, DecidableEq

/-- An error value: its kind plus its message. -/
structure ApiError where
  kind : ApiErrorKind
  message : String
deriving Repr, DecidableEq

/-- The HTTP error body the `errorHandler` middleware produces. -/
structure ErrorResponse where
  status : Nat
  errType : String
  code : String
  message : String
deriving Repr, DecidableEq

/-- `errorHandler`: an `APIError` keeps its status/code and message; a plain
`Error` becomes a 500 with a generic message. -/
def errorHandlerResponse : ApiError → ErrorResponse
  | ⟨ApiErrorKind.validation, msg⟩ => ⟨400, "invalid_request_error", "invalid_request_error", msg⟩
  | ⟨ApiErrorKind.authentication, msg⟩ => ⟨401, "invalid_api_key", "invalid_api_key", msg⟩
  | ⟨ApiErrorKind.claudeAgent, msg⟩ => ⟨500, "internal_error", "internal_error", msg⟩
  | ⟨ApiErrorKind.generic, _⟩ => ⟨500, "internal_error", "internal_error", "An internal error occurred"⟩

/-! ## Request validation (validateRequest in src/routes/chat-completions.ts)

In the typed embedding `content` is always a string, an array, or `null`,
so only the role check (and non-emptiness) can fail. -/

/-- The allowed message roles. -/
def validRole (r : String) : Bool :=
  (["system", "user", "assistant", "tool"]).contains r

/-- `validateRequest`: reject empty `messages` and bad roles with a
`ValidationError` (400 `invalid_request_error`). -/
def validateRequest (body : OpenAIChatRequest) : Except ApiError OpenAIChatRequest :=
  if body.messages.isEmpty then
    Except.error ⟨ApiErrorKind.validation, "messages array cannot be empty"⟩
  else
    match body.messages.findIdx? (fun m => !validRole m.role) with
    | some i =>
        Except.error ⟨ApiErrorKind.validation,
          "messages[" ++ toString i ++ "].role must be one of: system, user, assistant, tool"⟩
    | none => Except.ok body

/-! ## OpenAI → Claude conversion (src/converters/openai-to-claude.ts) -/

/-- `ClaudePrompt`. -/
structure ClaudePrompt where
  prompt : String
  systemPrompt : Option String := none
deriving Repr, DecidableEq

/-- `getTextContent`: extract text from a message content value. -/
def getTextContent : MsgContent → String
  | MsgContent.null => ""
  | MsgContent.str s => s
  | MsgContent.parts ps =>
      joinSep "\n"
        ((ps.filter (fun p => p.type == "text" && p.text.isSome)).map (fun p => p.text.getD ""))

/-- `getRoleLabel`'s default branch: `charAt(0).toUpperCase() + slice(1)`. -/
def capitalizeRole (role : String) : String :=
  match role.data with
  | [] => ""
  | c :: cs => String.mk (c.toUpper :: cs)

/-- `getRoleLabel`. -/
def getRoleLabel (role : String) : String :=
  if role == "user" then "User"
  else if role == "assistant" then "Assistant"
  else if role == "tool" then "Tool"
  else capitalizeRole role

/-- `formatMessage`: role-labelled rendering of one history message,
including tool calls and tool results. -/
def formatMessage (message : OpenAIMessage) : String :=
  let roleLabel := getRoleLabel message.role
  let content := getTextContent message.content
  let content :=
    if message.tool_calls.length > 0 then
      let toolCallsStr := joinSep "\n" (message.tool_calls.map
        (fun tc => "[Tool Call: " ++ tc.function.name ++ "(" ++ tc.function.arguments ++ ")]"))
      if content.isEmpty then toolCallsStr else content ++ "\n" ++ toolCallsStr
    else content
  if message.role == "tool" && !(message.tool_call_id.getD "").isEmpty then
    "Tool Result (" ++ message.tool_call_id.getD "" ++ "): " ++ content
  else
    roleLabel ++ ": " ++ content

/-- `findLastIndex` (the helper at the bottom of openai-to-claude.ts);
`-1` is modelled as `none`. -/
def findLastIndex {α : Type} (p : α → Bool) : List α → Option Nat
  | [] => none
  | x :: xs =>
    match findLastIndex p xs with
    | some i => some (i + 1)
    | none => if p x then some 0 else none

/-- `formatConversation`: flatten a multi-turn conversation into one text
block with a "Current request:" section for the last user message. -/
def formatConversation (messages : List OpenAIMessage) : String :=
  if messages.isEmpty then ""
  else if messages.length == 1 then getTextContent (messages.headD default).content
  else
    match findLastIndex (fun m => m.role == "user") messages with
    | none => joinSep "\n\n" (messages.map formatMessage)
    | some lastUserIndex =>
      let history := messages.take lastUserIndex
      let currentRequest := messages.getD lastUserIndex default
      let afterCurrent := messages.drop (lastUserIndex + 1)
      let parts : List String :=
        (if history.length > 0 then
          ["Previous conversation:", joinSep "\n\n" (history.map formatMessage), ""]
         else []) ++
        (if afterCurrent.length > 0 then
          [joinSep "\n\n" (afterCurrent.map formatMessage), ""]
         else []) ++
        ["Current request:", getTextContent currentRequest.content]
      joinSep "\n" parts

/-- The system-message extraction loop of `convertOpenAIToClaude`:
accumulates the concatenated system prompt (JS truthiness: an empty
accumulated prompt is replaced, not extended) and the non-system
conversation messages in order. -/
def partitionStep (acc : Option String × List OpenAIMessage) (message : OpenAIMessage) :
    Option String × List OpenAIMessage :=
  if message.role == "system" then
    let content := getTextContent message.content
    (some (match acc.1 with
           | some sp => if sp.isEmpty then content else sp ++ "\n\n" ++ content
           | none => content),
     acc.2)
  else (acc.1, acc.2 ++ [message])

def partitionMessages (messages : List OpenAIMessage) : Option String × List OpenAIMessage :=
  messages.foldl partitionStep (none, [])

/-- `convertOpenAIToClaude`: flatten an OpenAI request to a Claude prompt.
Note the empty-messages guard throws a plain `Error`, not a
`ValidationError`. -/
def convertOpenAIToClaude (request : OpenAIChatRequest) : Except ApiError ClaudePrompt :=
  let messages := request.messages
  if messages.isEmpty then
    Except.error ⟨ApiErrorKind.generic, "Messages array is required and cannot be empty"⟩
  else
    let p := partitionMessages messages
    let systemPrompt := p.1
    let conversationMessages := p.2
    if conversationMessages.length == 1 && (conversationMessages.headD default).role == "user" then
      Except.ok ⟨getTextContent (conversationMessages.headD default).content, systemPrompt⟩
    else
      Except.ok ⟨formatConversation conversationMessages, systemPrompt⟩

/-! ## Backend (Claude) messages (src/converters/claude-to-openai.ts) -/

/-- `ClaudeContentBlock`. -/
structure ClaudeContentBlock where
  type : String
  text : Option String := none
  name : Option String := none
  input : Option Json := none
  id : Option String := none

/-- The inner `message` payload of an assistant event. -/
structure ClaudeInnerMessage where
  role : String
  content : List ClaudeContentBlock

/-- `ClaudeMessage`: one backend event (fields the core reads). -/
structure ClaudeUsageField where
  input_tokens : Option Nat := none
  output_tokens : Option Nat := none

/-- `ClaudeMessage` (the backend event type). -/
structure ClaudeMessage where
  type : String
  subtype : Option String := none
  message : Option ClaudeInnerMessage := none
  usage : Option ClaudeUsageField := none

/-- `isAssistantMessage` (src/services/claude-agent.ts): the `content`
array, when present, is always truthy in JS, so the check reduces to the
tag plus presence of the payload. -/
def isAssistantMessage (m : ClaudeMessage) : Bool :=
  m.type == "assistant" && m.message.isSome

/-- `isResultMessage`. -/
def isResultMessage (m : ClaudeMessage) : Bool :=
  m.type == "result"

/-- `OpenAIUsage`. -/
structure OpenAIUsage where
  prompt_tokens : Nat
  completion_tokens : Nat
  total_tokens : Nat
deriving Repr, DecidableEq

/-- `ConvertedContent`: the result of `extractContent`. -/
structure ConvertedContent where
  textContent : String
  toolCalls : List OpenAIToolCall
deriving Repr, DecidableEq

/-- The block loop of `extractContent`. Per block, in order: a `text` block
with truthy text contributes its text; a `tool_use` block with a truthy
name becomes one tool call whose id is the block id when truthy and a
freshly generated id otherwise (`gen` applied to the threaded counter,
which advances only on synthesis); other blocks are skipped.
Returns (text parts, tool calls, final counter). -/
def extractBlocks (gen : Nat → String) :
    List ClaudeContentBlock → Nat → List String × List OpenAIToolCall × Nat
  | [], k => ([], [], k)
  | b :: bs, k =>
    if b.type == "text" && !(b.text.getD "").isEmpty then
      let r := extractBlocks gen bs k
      ((b.text.getD "") :: r.1, r.2.1, r.2.2)
    else if b.type == "tool_use" && !(b.name.getD "").isEmpty then
      let bid := b.id.getD ""
      let tcId := if bid.isEmpty then gen k else bid
      let k1 := if bid.isEmpty then k + 1 else k
      let tc : OpenAIToolCall :=
        ⟨tcId, ⟨b.name.getD "", Json.stringify (b.input.getD (Json.obj []))⟩⟩
      let r := extractBlocks gen bs k1
      (r.1, tc :: r.2.1, r.2.2)
    else
      extractBlocks gen bs k

/-- `extractContent`, with the fresh-id counter made explicit. -/
def extractContent (gen : Nat → String) (m : ClaudeMessage) (k : Nat) :
    ConvertedContent × Nat :=
  match m.message with
  | none => (⟨"", []⟩, k)
  | some inner =>
    let r := extractBlocks gen inner.content k
    (⟨joinSep "\n" r.1, r.2.1⟩, r.2.2)

/-- `extractUsage`: optional token counts default to 0; total is the sum. -/
def extractUsage (m : ClaudeMessage) : OpenAIUsage :=
  let inputTokens := (m.usage.bind (fun u => u.input_tokens)).getD 0
  let outputTokens := (m.usage.bind (fun u => u.output_tokens)).getD 0
  ⟨inputTokens, outputTokens, inputTokens + outputTokens⟩

/-! ## OpenAI response objects (src/converters/claude-to-openai.ts) -/

/-- The response `message` of a completion choice. -/
structure OpenAIResponseMessage where
  role : String
  content : Option String
  tool_calls : Option (List OpenAIToolCall) := none
deriving Repr, DecidableEq

/-- One choice of a (non-streaming) completion. -/
structure CompletionChoice where
  index : Nat
  message : OpenAIResponseMessage
  finish_reason : String
deriving Repr, DecidableEq

/-- `OpenAIChatCompletion` (`created` omitted; see module docstring). -/
structure OpenAIChatCompletion where
  id : String
  object : String
  model : String
  choices : List CompletionChoice
  usage : OpenAIUsage
deriving Repr, DecidableEq

/-- One entry of a streaming delta's `tool_calls` array. -/
structure DeltaToolCall where
  index : Nat
  id : Option String := none
  type : Option String := none
  name : Option String := none
  arguments : String
deriving Repr, DecidableEq

/-- `OpenAIDelta`. -/
structure OpenAIDelta where
  role : Option String := none
  content : Option String := none
  tool_calls : Option (List DeltaToolCall) := none
deriving Repr, DecidableEq

/-- One choice of a streaming chunk. -/
structure ChunkChoice where
  index : Nat
  delta : OpenAIDelta
  finish_reason : Option String
deriving Repr, DecidableEq

/-- `OpenAIChatCompletionChunk` (`created` omitted). -/
structure OpenAIChatCompletionChunk where
  id : String
  object : String
  model : String
  choices : List ChunkChoice
deriving Repr, DecidableEq

/-- `buildChatCompletion`. -/
def buildChatCompletion (id model : String) (content : Option String)
    (toolCalls : List OpenAIToolCall) (usage : OpenAIUsage) : OpenAIChatCompletion :=
  let message : OpenAIResponseMessage :=
    { role := "assistant", content := content,
      tool_calls := if toolCalls.length > 0 then some toolCalls else none }
  { id := id, object := "chat.completion", model := model,
    choices := [{ index := 0, message := message,
                  finish_reason := if toolCalls.length > 0 then "tool_calls" else "stop" }],
    usage := usage }

/-- `buildInitialChunk`: announces the assistant role. -/
def buildInitialChunk (id model : String) : OpenAIChatCompletionChunk :=
  { id := id, object := "chat.completion.chunk", model := model,
    choices := [{ index := 0, delta := { role := some "assistant" }, finish_reason := none }] }

/-- `buildContentChunk`. -/
def buildContentChunk (id model content : String) : OpenAIChatCompletionChunk :=
  { id := id, object := "chat.completion.chunk", model := model,
    choices := [{ index := 0, delta := { content := some content }, finish_reason := none }] }

/-- `buildToolCallChunk`: on the initial send each entry carries full
id/type/function data, otherwise only the arguments. -/
def buildToolCallChunk (id model : String) (toolCalls : List OpenAIToolCall)
    (isInitial : Bool) : OpenAIChatCompletionChunk :=
  let delta : OpenAIDelta :=
    { tool_calls := some (toolCalls.mapIdx (fun index tc =>
        if isInitial then
          { index := index, id := some tc.id, type := some "function",
            name := some tc.function.name, arguments := tc.function.arguments }
        else
          { index := index, arguments := tc.function.arguments })) }
  { id := id, object := "chat.completion.chunk", model := model,
    choices := [{ index := 0, delta := delta, finish_reason := none }] }

/-- `buildFinalChunk`. -/
def buildFinalChunk (id model : String) (hasToolCalls : Bool) : OpenAIChatCompletionChunk :=
  let fr := if hasToolCalls then "tool_calls" else "stop"
  { id := id, object := "chat.completion.chunk", model := model,
    choices := [{ index := 0, delta := {}, finish_reason := some fr }] }

/-! ## SSE output model (src/services/streaming.ts)

Each constructor is one `res.write` call; `renderWrite` is the exact string
that call writes. -/

/-- One server-sent write: a data chunk, the `[DONE]` terminator, or an
error-shaped chunk. -/
inductive SSEWrite where
  | chunk (c : OpenAIChatCompletionChunk) : SSEWrite
  | done : SSEWrite
  | error (message : String) : SSEWrite
deriving Repr, DecidableEq

/-- `sendChunk`. -/
def sendChunk (writes : List SSEWrite) (c : OpenAIChatCompletionChunk) : List SSEWrite :=
  writes ++ [SSEWrite.chunk c]

/-- `sendDone`. -/
def sendDone (writes : List SSEWrite) : List SSEWrite :=
  writes ++ [SSEWrite.done]

/-- `sendError`. -/
def sendError (writes : List SSEWrite) (message : String) : List SSEWrite :=
  writes ++ [SSEWrite.error message]

/-- JSON encoding of a streaming delta's tool-call entry, keys in
insertion order. -/
def deltaToolCallToJson (t : DeltaToolCall) : Json :=
  Json.obj ([("index", Json.num (Int.ofNat t.index))] ++
    (match t.id with | some i => [("id", Json.str i)] | none => []) ++
    (match t.type with | some ty => [("type", Json.str ty)] | none => []) ++
    (match t.name, t.arguments with
     | some n, args => [("function", Json.obj [("name", Json.str n), ("arguments", Json.str args)])]
     | none, args => [("function", Json.obj [("arguments", Json.str args)])]))

/-- JSON encoding of a streaming delta. -/
def deltaToJson (d : OpenAIDelta) : Json :=
  Json.obj ((match d.role with | some r => [("role", Json.str r)] | none => []) ++
    (match d.content with | some c => [("content", Json.str c)] | none => []) ++
    (match d.tool_calls with
     | some ts => [("tool_calls", Json.arr (ts.map deltaToolCallToJson))]
     | none => []))

/-- JSON encoding of a streaming chunk (`created` omitted). -/
def chunkToJson (c : OpenAIChatCompletionChunk) : Json :=
  Json.obj [("id", Json.str c.id), ("object", Json.str c.object),
    ("model", Json.str c.model),
    ("choices", Json.arr (c.choices.map (fun ch =>
      Json.obj [("index", Json.num (Int.ofNat ch.index)),
        ("delta", deltaToJson ch.delta),
        ("finish_reason", match ch.finish_reason with
          | some fr => Json.str fr
          | none => Json.null)])))]

/-- The error chunk `sendError` serializes. -/
def errorChunkJson (message : String) : Json :=
  Json.obj [("error", Json.obj [("message", Json.str message),
    ("type", Json.str "internal_error"), ("param", Json.null),
    ("code", Json.str "stream_error")])]

/-- The exact string a write puts on the wire. -/
def renderWrite : SSEWrite → String
  | SSEWrite.chunk c => "data: " ++ Json.stringify (chunkToJson c) ++ "\n\n"
  | SSEWrite.done => "data: [DONE]\n\n"
  | SSEWrite.error message => "data: " ++ Json.stringify (errorChunkJson message) ++ "\n\n"

/-- Whether a write is an error-shaped chunk. -/
def isErrorWrite : SSEWrite → Bool
  | SSEWrite.error _ => true
  | _ => false

/-! ## Backend run model

The backend event sequence may raise at any point during consumption; a
run is the list of events successfully yielded, followed by the outcome. -/

/-- How the backend sequence ends: normal exhaustion or a raised error. -/
inductive BackendOutcome where
  | ok : BackendOutcome
  | err (message : String) : BackendOutcome
deriving Repr, DecidableEq

/-- One backend run: the yielded events, then the outcome. -/
structure BackendRun where
  events : List ClaudeMessage
  outcome : BackendOutcome

/-! ## Streaming handler (handleStreamingRequest) -/

/-- The mutable state of the streaming loop (plus the emitted writes and
the fresh-id counter). -/
structure StreamState where
  writes : List SSEWrite
  hasToolCalls : Bool
  sentToolCallIds : List String
  counter : Nat

/-- The body of the streaming `for await` loop for one backend message. -/
def streamStep (gen : Nat → String) (completionId model : String)
    (st : StreamState) (m : ClaudeMessage) : StreamState :=
  if isAssistantMessage m then
    let r := extractContent gen m st.counter
    let st := { st with counter := r.2 }
    let st :=
      if !r.1.textContent.isEmpty then
        { st with writes := sendChunk st.writes (buildContentChunk completionId model r.1.textContent) }
      else st
    if r.1.toolCalls.length > 0 then
      let st := { st with hasToolCalls := true }
      let newToolCalls := r.1.toolCalls.filter (fun tc => !st.sentToolCallIds.contains tc.id)
      if newToolCalls.length > 0 then
        { st with
          writes := sendChunk st.writes (buildToolCallChunk completionId model newToolCalls true),
          sentToolCallIds := st.sentToolCallIds ++ newToolCalls.map (fun tc => tc.id) }
      else st
    else st
  else st

/-- `handleStreamingRequest`: initial role chunk, one pass over the backend
events, then either final chunk + terminator or error chunk + terminator. -/
def handleStreamingRequest (gen : Nat → String) (completionId model : String)
    (run : BackendRun) : List SSEWrite :=
  let st0 : StreamState :=
    ⟨sendChunk [] (buildInitialChunk completionId model), false, [], 0⟩
  let st := run.events.foldl (streamStep gen completionId model) st0
  match run.outcome with
  | BackendOutcome.ok =>
      sendDone (sendChunk st.writes (buildFinalChunk completionId model st.hasToolCalls))
  | BackendOutcome.err message =>
      sendDone (sendError st.writes message)

/-! ## Non-streaming handler (handleNonStreamingRequest) -/

/-- The accumulation state of the non-streaming loop. -/
structure NSState where
  collectedContent : List String
  collectedToolCalls : List OpenAIToolCall
  usage : OpenAIUsage
  seenToolCallIds : List String
  counter : Nat

/-- The tool-call deduplication step (the inner `for` loop body). -/
def dedupStep (a : NSState) (tc : OpenAIToolCall) : NSState :=
  if a.seenToolCallIds.contains tc.id then a
  else { a with collectedToolCalls := a.collectedToolCalls ++ [tc],
                seenToolCallIds := a.seenToolCallIds ++ [tc.id] }

/-- The body of the non-streaming `for await` loop for one backend
message. -/
def nonStreamStep (gen : Nat → String) (st : NSState) (m : ClaudeMessage) : NSState :=
  let st1 :=
    if isAssistantMessage m then
      let r := extractContent gen m st.counter
      let st := { st with counter := r.2 }
      let st :=
        if !r.1.textContent.isEmpty then
          { st with collectedContent := st.collectedContent ++ [r.1.textContent] }
        else st
      r.1.toolCalls.foldl dedupStep st
    else st
  if isResultMessage m then { st1 with usage := extractUsage m } else st1

/-- `handleNonStreamingRequest` on a successfully exhausted backend
sequence (a raised error is rethrown unchanged, so only the success path
produces a completion). -/
def handleNonStreamingRequest (gen : Nat → String) (completionId model : String)
    (events : List ClaudeMessage) : OpenAIChatCompletion :=
  let st := events.foldl (nonStreamStep gen) ⟨[], [], ⟨0, 0, 0⟩, [], 0⟩
  let content :=
    if st.collectedContent.length > 0 then some (joinSep "\n\n" st.collectedContent) else none
  buildChatCompletion completionId model content st.collectedToolCalls st.usage

/-- The tool-call list of a completion's single choice. -/
def completionToolCalls (c : OpenAIChatCompletion) : List OpenAIToolCall :=
  match c.choices with
  | [choice] => choice.message.tool_calls.getD []
  | _ => []

/-- The message content of a completion's single choice. -/
def completionContent (c : OpenAIChatCompletion) : Option String :=
  match c.choices with
  | [choice] => choice.message.content
  | _ => none

/-- The finish reason of a completion's single choice. -/
def completionFinishReason (c : OpenAIChatCompletion) : String :=
  match c.choices with
  | [choice] => choice.finish_reason
  | _ => ""

/-! ## Derived descriptions of the handlers' behaviour

These functions re-express, compositionally, what one pass of the handlers
computes; lemmas below prove the handlers equal to them. -/

/-- First-occurrence deduplication by tool-call id against a seen set. -/
def dedupById (seen : List String) : List OpenAIToolCall → List OpenAIToolCall
  | [] => []
  | tc :: tcs =>
    if seen.contains tc.id then dedupById seen tcs
    else tc :: dedupById (seen ++ [tc.id]) tcs

/-- The seen set after deduplicating a list of tool calls. -/
def dedupSeen (seen : List String) : List OpenAIToolCall → List String
  | [] => seen
  | tc :: tcs =>
    if seen.contains tc.id then dedupSeen seen tcs
    else dedupSeen (seen ++ [tc.id]) tcs

/-- The extracted content of each assistant event of a backend sequence,
in order, with the fresh-id counter threaded across events exactly as the
handlers thread it. -/
def extractedStream (gen : Nat → String) : List ClaudeMessage → Nat → List ConvertedContent
  | [], _ => []
  | m :: ms, k =>
    if isAssistantMessage m then
      let r := extractContent gen m k
      r.1 :: extractedStream gen ms r.2
    else
      extractedStream gen ms k

/-- The fresh-id counter after consuming a backend sequence. -/
def endCounter (gen : Nat → String) : List ClaudeMessage → Nat → Nat
  | [], k => k
  | m :: ms, k =>
    if isAssistantMessage m then endCounter gen ms (extractContent gen m k).2
    else endCounter gen ms k

/-- The usage after consuming a backend sequence: the last result event
wins, else the initial value. -/
def lastUsage (u : OpenAIUsage) : List ClaudeMessage → OpenAIUsage
  | [] => u
  | m :: ms => lastUsage (if isResultMessage m then extractUsage m else u) ms

/-- The non-empty text parts of an extracted stream, in order. -/
def streamTexts (cs : List ConvertedContent) : List String :=
  (cs.map ConvertedContent.textContent).filter (fun s => !s.isEmpty)

/-- All extracted tool calls of a stream, concatenated in order. -/
def streamCalls (cs : List ConvertedContent) : List OpenAIToolCall :=
  (cs.map ConvertedContent.toolCalls).flatten

/-- The per-assistant-event extracted tool-call lists of a backend
sequence. -/
def extractedToolCallLists (gen : Nat → String) (es : List ClaudeMessage) :
    List (List OpenAIToolCall) :=
  (extractedStream gen es 0).map ConvertedContent.toolCalls

/-- Spec-side predicate: a content block that contributes a text part
(`text` kind with truthy text). -/
def textBlockP (b : ClaudeContentBlock) : Bool :=
  b.type == "text" && !(b.text.getD "").isEmpty

/-- Spec-side predicate: a content block that becomes a tool call
(`tool_use` kind with a truthy tool name). -/
def toolBlockP (b : ClaudeContentBlock) : Bool :=
  b.type == "tool_use" && !(b.name.getD "").isEmpty

/-- Spec-side id assignment: map tool-use blocks to tool calls in order,
using the block id when truthy and a fresh generated id otherwise. -/
def assignIds (gen : Nat → String) (k : Nat) :
    List ClaudeContentBlock → List OpenAIToolCall × Nat
  | [] => ([], k)
  | b :: bs =>
    let bid := b.id.getD ""
    let tcId := if bid.isEmpty then gen k else bid
    let k1 := if bid.isEmpty then k + 1 else k
    let r := assignIds gen k1 bs
    (⟨tcId, ⟨b.name.getD "", Json.stringify (b.input.getD (Json.obj []))⟩⟩ :: r.1, r.2)

/-- Modelled from the spec (as amended for claim C7): content extraction
described block-by-block — text blocks with non-empty text contribute
their text joined by newlines; tool-use blocks with a non-empty name
become one tool call each (id from the block when non-empty, else freshly
generated; arguments the JSON serialization of the input, `\x7b\x7d` when
absent); all other blocks are ignored. -/
def extractContentSpec (gen : Nat → String) (m : ClaudeMessage) (k : Nat) :
    ConvertedContent × Nat :=
  match m.message with
  | none => (⟨"", []⟩, k)
  | some inner =>
    let texts := (inner.content.filter textBlockP).map (fun b => b.text.getD "")
    let r := assignIds gen k (inner.content.filter toolBlockP)
    (⟨joinSep "\n" texts, r.1⟩, r.2)

/-- The backend-assigned id of the unique tool-use block of an event
(used to state claim C2's freshness hypothesis). -/
def eventToolId (m : ClaudeMessage) : String :=
  match m.message with
  | some inner =>
    match inner.content.filter (fun b => b.type == "tool_use") with
    | [b] => b.id.getD ""
    | _ => ""
  | none => ""

/-- Claim C2's event shape: an assistant event whose content has no text
blocks and exactly one tool-use block, that block carrying a non-empty
tool name and a non-empty backend-assigned id. -/
def toolOnlyEventShape (m : ClaudeMessage) : Bool :=
  m.type == "assistant" &&
  (match m.message with
   | some inner =>
     inner.content.all (fun b => b.type != "text") &&
     (match inner.content.filter (fun b => b.type == "tool_use") with
      | [b] => !(b.name.getD "").isEmpty && !(b.id.getD "").isEmpty
      | _ => false)
   | none => false)

/-! ## Concrete fixtures used by witnesses and counterexamples -/

/-- A concrete fresh-id generator used in witnesses. -/
def genDefault : Nat → String := fun n => "call_gen_" ++ toString n

/-- An assistant event with a single named, id-carrying tool-use block. -/
def evToolA : ClaudeMessage :=
  ⟨"assistant", none,
    some ⟨"assistant", [⟨"tool_use", none, some "get_weather", none, some "tool-a"⟩]⟩, none⟩

/-- A second such event with a distinct tool-call id. -/
def evToolB : ClaudeMessage :=
  ⟨"assistant", none,
    some ⟨"assistant", [⟨"tool_use", none, some "get_time", none, some "tool-b"⟩]⟩, none⟩

/-- An assistant event whose tool-use block repeats the id of `evDup1`
under a different name. -/
def evDup1 : ClaudeMessage :=
  ⟨"assistant", none,
    some ⟨"assistant", [⟨"tool_use", none, some "first_name", none, some "dup"⟩]⟩, none⟩

/-- A second event reusing the same tool-call id with another name. -/
def evDup2 : ClaudeMessage :=
  ⟨"assistant", none,
    some ⟨"assistant", [⟨"tool_use", none, some "second_name", none, some "dup"⟩]⟩, none⟩

/-! ## List helper lemmas -/

lemma contains_append (l₁ l₂ : List String) (x : String) :
    (l₁ ++ l₂).contains x = (l₁.contains x || l₂.contains x) := by
  induction l₁ with
  | nil => rw [List.nil_append, List.contains_nil, Bool.false_or]
  | cons a l ih => rw [List.cons_append, List.contains_cons, List.contains_cons, ih, Bool.or_assoc]

lemma beq_symm_eq (a b : String) : (a == b) = (b == a) := by
  cases h : a == b with
  | true => exact (beq_iff_eq.mpr (beq_iff_eq.mp h).symm).symm
  | false => exact (beq_eq_false_iff_ne.mpr (Ne.symm (beq_eq_false_iff_ne.mp h))).symm

lemma find?_eq_head?_filter {α : Type} (p : α → Bool) (l : List α) :
    l.find? p = (l.filter p).head? := by
  induction l with
  | nil => rfl
  | cons a l ih =>
    cases h : p a with
    | true => rw [List.find?_cons_of_pos _ h, List.filter_cons_of_pos h, List.head?_cons]
    | false =>
      rw [List.find?_cons_of_neg _ (by simp [h]), List.filter_cons_of_neg (by simp [h]), ih]

lemma filter_id_cons_pos (tc : OpenAIToolCall) (l : List OpenAIToolCall) (x : String)
    (h : (tc.id == x) = true) :
    (tc :: l).filter (fun tc => tc.id == x) = tc :: l.filter (fun tc => tc.id == x) := by
  simp [List.filter_cons, h]

lemma filter_id_cons_neg (tc : OpenAIToolCall) (l : List OpenAIToolCall) (x : String)
    (h : (tc.id == x) = false) :
    (tc :: l).filter (fun tc => tc.id == x) = l.filter (fun tc => tc.id == x) := by
  simp [List.filter_cons, h]

lemma find_id_cons_pos (tc : OpenAIToolCall) (l : List OpenAIToolCall) (x : String)
    (h : (tc.id == x) = true) :
    (tc :: l).find? (fun tc => tc.id == x) = some tc := by
  simp [List.find?_cons, h]

lemma find_id_cons_neg (tc : OpenAIToolCall) (l : List OpenAIToolCall) (x : String)
    (h : (tc.id == x) = false) :
    (tc :: l).find? (fun tc => tc.id == x) = l.find? (fun tc => tc.id == x) := by
  simp [List.find?_cons, h]

/-! ## Deduplication lemmas -/

lemma dedupById_sublist (tcs : List OpenAIToolCall) :
    ∀ seen : List String, List.Sublist (dedupById seen tcs) tcs := by
  induction tcs with
  | nil => intro seen; exact List.Sublist.refl []
  | cons tc tcs ih =>
    intro seen
    simp only [dedupById]
    by_cases h : seen.contains tc.id = true
    · rw [if_pos h]
      exact (ih seen).trans (List.sublist_cons_self tc tcs)
    · rw [if_neg h]
      exact List.Sublist.cons₂ tc (ih (seen ++ [tc.id]))

lemma dedupSeen_contains (tcs : List OpenAIToolCall) :
    ∀ (seen : List String) (x : String),
      (dedupSeen seen tcs).contains x =
        (seen.contains x || (tcs.map OpenAIToolCall.id).contains x) := by
  induction tcs with
  | nil => intro seen x; simp [dedupSeen]
  | cons tc tcs ih =>
    intro seen x
    simp only [dedupSeen, List.map_cons, List.contains_cons]
    by_cases h : seen.contains tc.id = true
    · rw [if_pos h, ih]
      cases hx : x == tc.id with
      | true =>
        have hxe : x = tc.id := beq_iff_eq.mp hx
        rw [hxe, h]
        simp
      | false => simp [hx]
    · rw [if_neg h, ih, contains_append, List.contains_cons, List.contains_nil, Bool.or_false,
        Bool.or_assoc]

lemma dedupById_append (a b : List OpenAIToolCall) :
    ∀ seen : List String,
      dedupById seen (a ++ b) = dedupById seen a ++ dedupById (dedupSeen seen a) b := by
  induction a with
  | nil => intro seen; rfl
  | cons tc a ih =>
    intro seen
    simp only [List.cons_append, dedupById, dedupSeen, List.append_eq]
    by_cases h : seen.contains tc.id = true
    · rw [if_pos h, if_pos h, if_pos h, ih seen]
    · rw [if_neg h, if_neg h, if_neg h, ih (seen ++ [tc.id]), List.cons_append]

lemma dedupSeen_append (a b : List OpenAIToolCall) :
    ∀ seen : List String,
      dedupSeen seen (a ++ b) = dedupSeen (dedupSeen seen a) b := by
  induction a with
  | nil => intro seen; rfl
  | cons tc a ih =>
    intro seen
    simp only [List.cons_append, dedupSeen, List.append_eq]
    by_cases h : seen.contains tc.id = true
    · rw [if_pos h, if_pos h, ih seen]
    · rw [if_neg h, if_neg h, ih (seen ++ [tc.id])]

lemma dedupById_filter_of_seen (x : String) (tcs : List OpenAIToolCall) :
    ∀ seen : List String, seen.contains x = true →
      (dedupById seen tcs).filter (fun tc => tc.id == x) = [] := by
  induction tcs with
  | nil => intro seen _; rfl
  | cons tc tcs ih =>
    intro seen hx
    simp only [dedupById]
    by_cases h : seen.contains tc.id = true
    · rw [if_pos h]
      exact ih seen hx
    · rw [if_neg h]
      have h' : seen.contains tc.id = false := by simpa using h
      have hne : (tc.id == x) = false := by
        refine beq_eq_false_iff_ne.mpr ?_
        intro he
        rw [he, hx] at h'
        exact Bool.noConfusion h'
      have hx2 : (seen ++ [tc.id]).contains x = true := by
        rw [contains_append, hx, Bool.true_or]
      rw [filter_id_cons_neg _ _ _ hne]
      exact ih (seen ++ [tc.id]) hx2

lemma dedupById_filter_find (x : String) (tcs : List OpenAIToolCall) :
    ∀ seen : List String, seen.contains x = false →
      (dedupById seen tcs).filter (fun tc => tc.id == x) =
        (tcs.find? (fun tc => tc.id == x)).toList := by
  induction tcs with
  | nil => intro seen _; rfl
  | cons tc tcs ih =>
    intro seen hx
    simp only [dedupById]
    by_cases h : seen.contains tc.id = true
    · rw [if_pos h]
      have hne : (tc.id == x) = false := by
        refine beq_eq_false_iff_ne.mpr ?_
        intro he
        rw [← he, h] at hx
        exact Bool.noConfusion hx
      rw [find_id_cons_neg _ _ _ hne]
      exact ih seen hx
    · rw [if_neg h]
      cases hp : tc.id == x with
      | true =>
        have hpe : tc.id = x := beq_iff_eq.mp hp
        have hmem : (seen ++ [tc.id]).contains x = true := by
          rw [contains_append, hpe, List.contains_cons, beq_iff_eq.mpr rfl]
          simp
        rw [filter_id_cons_pos _ _ _ hp, find_id_cons_pos _ _ _ hp,
          dedupById_filter_of_seen x tcs (seen ++ [tc.id]) hmem]
        rfl
      | false =>
        have hx2 : (seen ++ [tc.id]).contains x = false := by
          rw [contains_append, hx, Bool.false_or, List.contains_cons, List.contains_nil,
            Bool.or_false, beq_symm_eq x tc.id, hp]
        rw [filter_id_cons_neg _ _ _ hp, find_id_cons_neg _ _ _ hp]
        exact ih (seen ++ [tc.id]) hx2

lemma dedupById_find (x : String) (tcs : List OpenAIToolCall)
    (seen : List String) (hx : seen.contains x = false) :
    (dedupById seen tcs).find? (fun tc => tc.id == x) =
      tcs.find? (fun tc => tc.id == x) := by
  rw [find?_eq_head?_filter, dedupById_filter_find x tcs seen hx]
  cases tcs.find? (fun tc => tc.id == x) <;> rfl

lemma dedupById_nil_iff (tcs : List OpenAIToolCall) :
    dedupById [] tcs = [] ↔ tcs = [] := by
  cases tcs with
  | nil => simp [dedupById]
  | cons tc tcs => simp [dedupById]

/-! ## Characterizing the non-streaming fold -/

lemma dedupFold_eq (tcs : List OpenAIToolCall) :
    ∀ st : NSState, tcs.foldl dedupStep st =
      { st with collectedToolCalls := st.collectedToolCalls ++ dedupById st.seenToolCallIds tcs,
                seenToolCallIds := dedupSeen st.seenToolCallIds tcs } := by
  induction tcs with
  | nil =>
    intro st
    simp [dedupById, dedupSeen]
  | cons tc tcs ih =>
    intro st
    obtain ⟨cc, ctc, u, sn, k⟩ := st
    rw [List.foldl_cons]
    simp only [dedupStep, dedupById, dedupSeen]
    by_cases h : sn.contains tc.id = true
    · rw [if_pos h, if_pos h, if_pos h]
      exact ih _
    · rw [if_neg h, if_neg h, if_neg h, ih _]
      simp [List.append_assoc]

/-- What one pass of the non-streaming loop computes, as a function of the
extracted stream. -/
lemma nsFold_eq (gen : Nat → String) (es : List ClaudeMessage) :
    ∀ st : NSState,
      es.foldl (nonStreamStep gen) st =
        { collectedContent := st.collectedContent ++ streamTexts (extractedStream gen es st.counter),
          collectedToolCalls :=
            st.collectedToolCalls ++
              dedupById st.seenToolCallIds (streamCalls (extractedStream gen es st.counter)),
          usage := lastUsage st.usage es,
          seenToolCallIds := dedupSeen st.seenToolCallIds (streamCalls (extractedStream gen es st.counter)),
          counter := endCounter gen es st.counter } := by
  induction es with
  | nil =>
    intro st
    simp [extractedStream, streamTexts, streamCalls, lastUsage, endCounter, dedupById, dedupSeen]
  | cons m ms ih =>
    intro st
    obtain ⟨cc, ctc, u, sn, k⟩ := st
    rw [List.foldl_cons]
    simp only [nonStreamStep, extractedStream, endCounter, lastUsage, dedupFold_eq]
    cases hA : isAssistantMessage m with
    | true =>
      cases hT : (extractContent gen m k).1.textContent.isEmpty with
      | true =>
        cases hR : isResultMessage m with
        | true =>
          simp [ih, streamTexts, streamCalls, List.filter_cons, hT, dedupById_append,
            dedupSeen_append, List.append_assoc]
        | false =>
          simp [ih, streamTexts, streamCalls, List.filter_cons, hT, dedupById_append,
            dedupSeen_append, List.append_assoc]
      | false =>
        cases hR : isResultMessage m with
        | true =>
          simp [ih, streamTexts, streamCalls, List.filter_cons, hT, dedupById_append,
            dedupSeen_append, List.append_assoc]
        | false =>
          simp [ih, streamTexts, streamCalls, List.filter_cons, hT, dedupById_append,
            dedupSeen_append, List.append_assoc]
    | false =>
      cases hR : isResultMessage m with
      | true => simp [ih]
      | false => simp [ih]

/-- The completion built by the non-streaming handler, expressed through
the extracted stream. -/
lemma handleNS_run (gen : Nat → String) (cid model : String) (es : List ClaudeMessage) :
    handleNonStreamingRequest gen cid model es =
      buildChatCompletion cid model
        (if (streamTexts (extractedStream gen es 0)).length > 0 then
          some (joinSep "\n\n" (streamTexts (extractedStream gen es 0)))
         else none)
        (dedupById [] (streamCalls (extractedStream gen es 0)))
        (lastUsage ⟨0, 0, 0⟩ es) := by
  unfold handleNonStreamingRequest
  rw [nsFold_eq]
  simp

lemma completionToolCalls_build (id model : String) (content : Option String)
    (toolCalls : List OpenAIToolCall) (usage : OpenAIUsage) :
    completionToolCalls (buildChatCompletion id model content toolCalls usage) = toolCalls := by
  cases toolCalls with
  | nil => rfl
  | cons tc tcs => simp [buildChatCompletion, completionToolCalls]

lemma completionContent_build (id model : String) (content : Option String)
    (toolCalls : List OpenAIToolCall) (usage : OpenAIUsage) :
    completionContent (buildChatCompletion id model content toolCalls usage) = content := rfl

lemma completionFinishReason_build (id model : String) (content : Option String)
    (toolCalls : List OpenAIToolCall) (usage : OpenAIUsage) :
    completionFinishReason (buildChatCompletion id model content toolCalls usage) =
      if toolCalls.length > 0 then "tool_calls" else "stop" := rfl

lemma usage_build (id model : String) (content : Option String)
    (toolCalls : List OpenAIToolCall) (usage : OpenAIUsage) :
    (buildChatCompletion id model content toolCalls usage).usage = usage := rfl

/-- The usage invariant is preserved along a backend sequence. -/
lemma lastUsage_inv (es : List ClaudeMessage) :
    ∀ u : OpenAIUsage, u.total_tokens = u.prompt_tokens + u.completion_tokens →
      (lastUsage u es).total_tokens =
        (lastUsage u es).prompt_tokens + (lastUsage u es).completion_tokens := by
  induction es with
  | nil => intro u h; exact h
  | cons m ms ih =>
    intro u h
    simp only [lastUsage]
    by_cases hR : isResultMessage m = true
    · rw [if_pos hR]
      exact ih (extractUsage m) rfl
    · rw [if_neg hR]
      exact ih u h

/-! ## Characterizing content extraction -/

lemma extractBlocks_spec (gen : Nat → String) (bs : List ClaudeContentBlock) :
    ∀ k : Nat,
      extractBlocks gen bs k =
        ((bs.filter textBlockP).map (fun b => b.text.getD ""),
         assignIds gen k (bs.filter toolBlockP)) := by
  induction bs with
  | nil => intro k; rfl
  | cons b bs ih =>
    intro k
    simp only [extractBlocks, List.filter_cons, textBlockP, toolBlockP]
    by_cases h1 : (b.type == "text") = true
    · have h2 : (b.type == "tool_use") = false := by
        refine beq_eq_false_iff_ne.mpr ?_
        intro he
        rw [he] at h1
        exact absurd (beq_iff_eq.mp h1) (by decide)
      by_cases ht : (b.text.getD "").isEmpty = true
      · simp [h1, h2, ht, ih]
      · have ht' : (b.text.getD "").isEmpty = false := by simpa using ht
        simp [h1, h2, ht', ih, assignIds]
    · have h1' : (b.type == "text") = false := by simpa using h1
      by_cases h2 : (b.type == "tool_use") = true
      · by_cases hn : (b.name.getD "").isEmpty = true
        · simp [h1', h2, hn, ih]
        · have hn' : (b.name.getD "").isEmpty = false := by simpa using hn
          simp [h1', h2, hn', ih, assignIds]
      · have h2' : (b.type == "tool_use") = false := by simpa using h2
        simp [h1', h2', ih]

/-- `extractContent` coincides with its spec-side description. -/
lemma extractContent_eq_spec (gen : Nat → String) (m : ClaudeMessage) (k : Nat) :
    extractContent gen m k = extractContentSpec gen m k := by
  cases hm : m.message with
  | none => simp [extractContent, extractContentSpec, hm]
  | some inner => simp [extractContent, extractContentSpec, hm, extractBlocks_spec]

lemma filter_toolBlockP (l : List ClaudeContentBlock) :
    l.filter toolBlockP =
      (l.filter (fun b => b.type == "tool_use")).filter (fun b => !(b.name.getD "").isEmpty) := by
  rw [List.filter_filter]
  refine List.filter_congr ?_
  intro b _
  exact Bool.and_comm _ _

/-- A C2-shaped event extracts no text and exactly one tool call, carrying
the block's backend-assigned id, without touching the fresh-id counter. -/
lemma shape_extract (gen : Nat → String) (k : Nat) (m : ClaudeMessage)
    (h : toolOnlyEventShape m = true) :
    ∃ tc : OpenAIToolCall,
      extractContent gen m k = (⟨"", [tc]⟩, k) ∧ tc.id = eventToolId m ∧ tc.id ≠ "" := by
  unfold toolOnlyEventShape at h
  rw [Bool.and_eq_true] at h
  obtain ⟨hty, hrest⟩ := h
  cases hm : m.message with
  | none => rw [hm] at hrest; exact absurd hrest (by simp)
  | some inner =>
    rw [hm] at hrest
    simp only at hrest
    cases hf : inner.content.filter (fun b => b.type == "tool_use") with
    | nil => rw [hf] at hrest; simp at hrest
    | cons b rest =>
      cases rest with
      | cons b2 rest2 => rw [hf] at hrest; simp at hrest
      | nil =>
        rw [hf] at hrest
        simp only [Bool.and_eq_true] at hrest
        have hall := hrest.1
        have hname := hrest.2.1
        have hid := hrest.2.2
        have htexts : inner.content.filter textBlockP = [] := by
          rw [List.filter_eq_nil_iff]
          intro a ha
          unfold textBlockP
          have := (List.all_eq_true.mp hall) a ha
          simp only [bne_iff_ne, ne_eq] at this
          simp [beq_eq_false_iff_ne.mpr this]
        have htool : inner.content.filter toolBlockP = [b] := by
          rw [filter_toolBlockP, hf, List.filter_cons, if_pos hname]
          rfl
        refine ⟨⟨b.id.getD "", ⟨b.name.getD "", Json.stringify (b.input.getD (Json.obj []))⟩⟩, ?_, ?_, ?_⟩
        · rw [extractContent_eq_spec]
          unfold extractContentSpec
          rw [hm]
          simp only [htexts, htool, assignIds]
          have hidf : (b.id.getD "").isEmpty = false := by
            cases hie : (b.id.getD "").isEmpty
            · rfl
            · rw [hie] at hid; exact absurd hid (by simp)
          rw [hidf]
          simp [joinSep]
        · unfold eventToolId
          rw [hm]
          simp only
          rw [hf]
        · intro he
          have he' : b.id.getD "" = "" := he
          have : (b.id.getD "").isEmpty = true := by rw [he']; rfl
          rw [this] at hid
          exact absurd hid (by simp)

/-! ## Characterizing the streaming fold -/

/-- One streaming step only appends data chunks to the write list. -/
lemma streamStep_writes (gen : Nat → String) (cid model : String) (st : StreamState)
    (m : ClaudeMessage) :
    ∃ pre : List OpenAIChatCompletionChunk,
      (streamStep gen cid model st m).writes = st.writes ++ pre.map SSEWrite.chunk := by
  obtain ⟨w, hb, sent, k⟩ := st
  simp only [streamStep, sendChunk]
  by_cases hA : isAssistantMessage m = true
  · rw [if_pos hA]
    by_cases hT : (!(extractContent gen m k).1.textContent.isEmpty) = true
    · rw [if_pos hT]
      by_cases hL : (extractContent gen m k).1.toolCalls.length > 0
      · rw [if_pos hL]
        by_cases hN :
          ((extractContent gen m k).1.toolCalls.filter (fun tc => !sent.contains tc.id)).length > 0
        · rw [if_pos hN]
          exact ⟨[buildContentChunk cid model (extractContent gen m k).1.textContent,
            buildToolCallChunk cid model
              ((extractContent gen m k).1.toolCalls.filter (fun tc => !sent.contains tc.id)) true],
            by simp⟩
        · rw [if_neg hN]
          exact ⟨[buildContentChunk cid model (extractContent gen m k).1.textContent], by simp⟩
      · rw [if_neg hL]
        exact ⟨[buildContentChunk cid model (extractContent gen m k).1.textContent], by simp⟩
    · rw [if_neg hT]
      by_cases hL : (extractContent gen m k).1.toolCalls.length > 0
      · rw [if_pos hL]
        by_cases hN :
          ((extractContent gen m k).1.toolCalls.filter (fun tc => !sent.contains tc.id)).length > 0
        · rw [if_pos hN]
          exact ⟨[buildToolCallChunk cid model
              ((extractContent gen m k).1.toolCalls.filter (fun tc => !sent.contains tc.id)) true],
            by simp⟩
        · rw [if_neg hN]
          exact ⟨[], by simp⟩
      · rw [if_neg hL]
        exact ⟨[], by simp⟩
  · rw [if_neg hA]
    exact ⟨[], by simp⟩

/-- The streaming loop only appends data chunks to the write list. -/
lemma streamFold_chunks (gen : Nat → String) (cid model : String) (es : List ClaudeMessage) :
    ∀ st : StreamState, ∃ cs : List OpenAIChatCompletionChunk,
      (es.foldl (streamStep gen cid model) st).writes = st.writes ++ cs.map SSEWrite.chunk := by
  induction es with
  | nil => intro st; exact ⟨[], by simp⟩
  | cons m ms ih =>
    intro st
    rw [List.foldl_cons]
    obtain ⟨cs, hcs⟩ := ih (streamStep gen cid model st m)
    obtain ⟨pre, hpre⟩ := streamStep_writes gen cid model st m
    exact ⟨pre ++ cs, by rw [hcs, hpre]; simp [List.append_assoc]⟩

/-- A C2-shaped event is an assistant event. -/
lemma shape_isAssistant (m : ClaudeMessage) (h : toolOnlyEventShape m = true) :
    isAssistantMessage m = true := by
  unfold toolOnlyEventShape at h
  rw [Bool.and_eq_true] at h
  unfold isAssistantMessage
  rw [Bool.and_eq_true]
  refine ⟨h.1, ?_⟩
  cases hm : m.message with
  | none => rw [hm] at h; exact absurd h.2 (by simp)
  | some inner => rfl

/-- On C2-shaped events with pairwise-fresh unseen ids, the streaming loop
emits exactly one tool-call chunk per event. -/
lemma streamFold_toolOnly (gen : Nat → String) (cid model : String) (es : List ClaudeMessage) :
    ∀ st : StreamState,
      (∀ m ∈ es, toolOnlyEventShape m = true) →
      (es.map eventToolId).Nodup →
      (∀ m ∈ es, st.sentToolCallIds.contains (eventToolId m) = false) →
      ∃ cs : List OpenAIChatCompletionChunk,
        (es.foldl (streamStep gen cid model) st).writes = st.writes ++ cs.map SSEWrite.chunk ∧
        cs.length = es.length := by
  induction es with
  | nil => intro st _ _ _; exact ⟨[], by simp, rfl⟩
  | cons m ms ih =>
    intro st hshape hnodup hfresh
    obtain ⟨w, hb, sent, k⟩ := st
    rw [List.foldl_cons]
    have hm := hshape m (List.mem_cons_self m ms)
    have hA := shape_isAssistant m hm
    obtain ⟨tc, hext, hid, hne⟩ := shape_extract gen k m hm
    have hcontains : sent.contains tc.id = false := by
      rw [hid]
      exact hfresh m (List.mem_cons_self m ms)
    have hstep : streamStep gen cid model ⟨w, hb, sent, k⟩ m =
        ⟨w ++ [SSEWrite.chunk (buildToolCallChunk cid model [tc] true)], true,
         sent ++ [tc.id], k⟩ := by
      have hmemn : tc.id ∉ sent := by simpa using hcontains
      have hemp : ("" : String).isEmpty = true := rfl
      simp only [streamStep, sendChunk]
      rw [if_pos hA, hext]
      simp [List.filter_cons, hmemn, hemp]
    rw [hstep]
    have hnodup' : (ms.map eventToolId).Nodup := by
      rw [List.map_cons, List.nodup_cons] at hnodup
      exact hnodup.2
    have hnotmem : eventToolId m ∉ ms.map eventToolId := by
      rw [List.map_cons, List.nodup_cons] at hnodup
      exact hnodup.1
    have hfresh' : ∀ m' ∈ ms, (sent ++ [tc.id]).contains (eventToolId m') = false := by
      intro m' hmem
      rw [contains_append]
      have h1 : sent.contains (eventToolId m') = false :=
        hfresh m' (List.mem_cons_of_mem m hmem)
      have h2 : ([tc.id] : List String).contains (eventToolId m') = false := by
        rw [List.contains_cons, List.contains_nil, Bool.or_false, hid]
        refine beq_eq_false_iff_ne.mpr ?_
        intro he
        rw [← he] at hnotmem
        exact hnotmem (List.mem_map_of_mem eventToolId hmem)
      rw [h1, h2]
      rfl
    obtain ⟨cs, hcs, hlen⟩ :=
      ih ⟨w ++ [SSEWrite.chunk (buildToolCallChunk cid model [tc] true)], true,
          sent ++ [tc.id], k⟩
        (fun m' hmem => hshape m' (List.mem_cons_of_mem m hmem)) hnodup' hfresh'
    refine ⟨buildToolCallChunk cid model [tc] true :: cs, ?_, ?_⟩
    · rw [hcs]
      simp [List.append_assoc]
    · simp [hlen]

/-! ## Conversion lemmas -/

lemma partitionFold_snd (messages : List OpenAIMessage) :
    ∀ acc : Option String × List OpenAIMessage,
      (messages.foldl partitionStep acc).2 =
        acc.2 ++ messages.filter (fun m => !(m.role == "system")) := by
  induction messages with
  | nil => intro acc; simp
  | cons msg ms ih =>
    intro acc
    rw [List.foldl_cons]
    simp only [partitionStep, List.filter_cons]
    by_cases h : (msg.role == "system") = true
    · rw [if_pos h, ih]
      have hn : (!(msg.role == "system")) = false := by rw [h]; rfl
      rw [hn]
      simp
    · have h' : (msg.role == "system") = false := by simpa using h
      rw [if_neg h, ih]
      have hn : (!(msg.role == "system")) = true := by rw [h']; rfl
      rw [hn]
      simp [List.append_assoc]

/-- The conversation part of the system/conversation split is the list of
non-system messages, in order. -/
lemma partitionMessages_snd (messages : List OpenAIMessage) :
    (partitionMessages messages).2 = messages.filter (fun m => !(m.role == "system")) := by
  unfold partitionMessages
  rw [partitionFold_snd]
  rfl

lemma joinSep_cons_cons (sep a b : String) (l : List String) :
    joinSep sep (a :: b :: l) = a ++ sep ++ joinSep sep (b :: l) := rfl

/-- Joining a list ending in two fixed entries produces a string ending in
those entries around one separator. -/
lemma joinSep_append_two (sep a b : String) (xs : List String) :
    ∃ pre : String, joinSep sep (xs ++ [a, b]) = pre ++ (a ++ sep ++ b) := by
  induction xs with
  | nil =>
    refine ⟨"", ?_⟩
    rw [List.nil_append, joinSep_cons_cons]
    simp [joinSep]
  | cons x xs ih =>
    obtain ⟨pre, hp⟩ := ih
    obtain ⟨y, ys, hys⟩ : ∃ y ys, xs ++ [a, b] = y :: ys := by
      cases xs with
      | nil => exact ⟨a, [b], rfl⟩
      | cons z zs => exact ⟨z, zs ++ [a, b], rfl⟩
    refine ⟨x ++ sep ++ pre, ?_⟩
    rw [List.cons_append, hys, joinSep_cons_cons, ← hys, hp]
    simp [String.append_assoc]

/-- When the conversation has several messages and a last user message,
the formatted conversation ends with the "Current request:" marker
immediately followed by that user message's text. -/
lemma formatConversation_marker (messages : List OpenAIMessage) (kk : Nat)
    (hlen : 1 < messages.length)
    (hk : findLastIndex (fun m => m.role == "user") messages = some kk) :
    ∃ pre, formatConversation messages =
      pre ++ ("Current request:\n" ++ getTextContent (messages.getD kk default).content) := by
  have hne : messages.isEmpty = false := by
    cases messages with
    | nil => exact absurd hlen (by simp)
    | cons a l => rfl
  have hlen1 : (messages.length == 1) = false :=
    beq_eq_false_iff_ne.mpr (Nat.ne_of_gt hlen)
  unfold formatConversation
  rw [if_neg (by rw [hne]; exact Bool.noConfusion), if_neg (by rw [hlen1]; exact Bool.noConfusion),
    hk]
  simp only
  obtain ⟨pre, hp⟩ := joinSep_append_two "\n" "Current request:"
    (getTextContent (messages.getD kk default).content)
    ((if (messages.take kk).length > 0 then
        ["Previous conversation:", joinSep "\n\n" ((messages.take kk).map formatMessage), ""]
      else []) ++
     (if (messages.drop (kk + 1)).length > 0 then
        [joinSep "\n\n" ((messages.drop (kk + 1)).map formatMessage), ""]
      else []))
  refine ⟨pre, ?_⟩
  rw [hp]
  have hs : ("Current request:" ++ "\n" ++
      getTextContent (messages.getD kk default).content) =
      ("Current request:\n" ++ getTextContent (messages.getD kk default).content) := by
    rw [String.append_assoc]
    rfl
  rw [hs]

/-! ## Claim theorems -/

/-- Claim C10: request validation accepts a message whose content is null,
and for a single user message with null content the flattener succeeds and
returns the empty prompt (no system prompt); the request is not
rejected. -/
theorem null_content_empty_prompt :
    validateRequest ⟨none, [⟨"user", MsgContent.null, [], none⟩], false⟩ =
        Except.ok ⟨none, [⟨"user", MsgContent.null, [], none⟩], false⟩ ∧
      convertOpenAIToClaude ⟨none, [⟨"user", MsgContent.null, [], none⟩], false⟩ =
        Except.ok ⟨"", none⟩ :=
  ⟨rfl, rfl⟩

/-- Counterexample to claim C6: on the empty message list the flattener
fails with a plain generic error (mapped by the error handler to HTTP 500
internal_error), not with the `ValidationError`/InvalidRequest variant
(mapped to HTTP 400 invalid_request_error). -/
theorem flatten_empty_error_kind_counterexample :
    convertOpenAIToClaude ⟨none, [], false⟩ =
        Except.error ⟨ApiErrorKind.generic, "Messages array is required and cannot be empty"⟩ ∧
      ApiErrorKind.generic ≠ ApiErrorKind.validation ∧
      (errorHandlerResponse ⟨ApiErrorKind.generic,
        "Messages array is required and cannot be empty"⟩).status = 500 :=
  ⟨rfl, by decide, rfl⟩

/-- Claim C6 (amended): the flattener does defensively reject the empty
message list, but by raising a plain generic error (500 internal_error
through the error handler); the 400 invalid_request_error rejection of
empty `messages` comes from the route's `validateRequest`, which runs
before the flattener. -/
theorem flatten_empty_generic_error (request : OpenAIChatRequest)
    (h : request.messages = []) :
    convertOpenAIToClaude request =
        Except.error ⟨ApiErrorKind.generic, "Messages array is required and cannot be empty"⟩ ∧
      validateRequest request =
        Except.error ⟨ApiErrorKind.validation, "messages array cannot be empty"⟩ ∧
      (errorHandlerResponse ⟨ApiErrorKind.generic,
          "Messages array is required and cannot be empty"⟩).status = 500 ∧
      (errorHandlerResponse ⟨ApiErrorKind.validation,
          "messages array cannot be empty"⟩).status = 400 := by
  simp only [convertOpenAIToClaude, validateRequest]
  rw [h]
  exact ⟨rfl, rfl, rfl, rfl⟩

/-- Witness for the amended claim C6 at the empty request. -/
theorem flatten_empty_generic_error_witness :
    (⟨none, [], false⟩ : OpenAIChatRequest).messages = [] ∧
      (convertOpenAIToClaude ⟨none, [], false⟩ =
          Except.error ⟨ApiErrorKind.generic, "Messages array is required and cannot be empty"⟩ ∧
        validateRequest ⟨none, [], false⟩ =
          Except.error ⟨ApiErrorKind.validation, "messages array cannot be empty"⟩ ∧
        (errorHandlerResponse ⟨ApiErrorKind.generic,
            "Messages array is required and cannot be empty"⟩).status = 500 ∧
        (errorHandlerResponse ⟨ApiErrorKind.validation,
            "messages array cannot be empty"⟩).status = 400) :=
  ⟨rfl, flatten_empty_generic_error ⟨none, [], false⟩ rfl⟩

/-- Counterexample to claim C5: a conversation consisting of exactly one
assistant message is returned verbatim ("hello"), not in the role-labelled
history form ("Assistant: hello") the claim requires. -/
theorem singleton_nonuser_counterexample :
    convertOpenAIToClaude ⟨none, [⟨"assistant", MsgContent.str "hello", [], none⟩], false⟩ =
        Except.ok ⟨"hello", none⟩ ∧
      formatMessage ⟨"assistant", MsgContent.str "hello", [], none⟩ = "Assistant: hello" ∧
      ("hello" : String) ≠ "Assistant: hello" :=
  ⟨rfl, rfl, by decide⟩

/-- Claim C5 (amended): when the non-system part of the message list is a
single message, the flattener returns that message's extracted text
verbatim regardless of its role — `formatConversation` short-circuits on
singleton lists before any role labelling. -/
theorem singleton_conversation_verbatim (request : OpenAIChatRequest) (msg : OpenAIMessage)
    (h : request.messages.filter (fun m => !(m.role == "system")) = [msg]) :
    (convertOpenAIToClaude request).map ClaudePrompt.prompt =
      Except.ok (getTextContent msg.content) := by
  have hne : request.messages.isEmpty = false := by
    cases hm : request.messages with
    | nil => rw [hm] at h; exact absurd h (by simp)
    | cons a l => rfl
  have hconv : (partitionMessages request.messages).2 = [msg] := by
    rw [partitionMessages_snd, h]
  simp only [convertOpenAIToClaude]
  rw [if_neg (by simp [hne]), hconv]
  by_cases hu : (msg.role == "user") = true
  · have hcond : (([msg] : List OpenAIMessage).length == 1 &&
        (([msg] : List OpenAIMessage).headD default).role == "user") = true := by
      rw [Bool.and_eq_true]
      exact ⟨rfl, hu⟩
    rw [if_pos hcond]
    rfl
  · have hu' : (msg.role == "user") = false := by simpa using hu
    have hcond : (([msg] : List OpenAIMessage).length == 1 &&
        (([msg] : List OpenAIMessage).headD default).role == "user") = false := by
      simp [hu']
    rw [if_neg (by simp [hu'])]
    have hf : formatConversation [msg] = getTextContent msg.content := rfl
    rw [hf]
    rfl

/-- Witness for the amended claim C5 at a single assistant message. -/
theorem singleton_conversation_verbatim_witness :
    ((⟨none, [⟨"assistant", MsgContent.str "hi", [], none⟩], false⟩ : OpenAIChatRequest).messages.filter
        (fun m => !(m.role == "system")) = [⟨"assistant", MsgContent.str "hi", [], none⟩]) ∧
      (convertOpenAIToClaude
          ⟨none, [⟨"assistant", MsgContent.str "hi", [], none⟩], false⟩).map ClaudePrompt.prompt =
        Except.ok (getTextContent (MsgContent.str "hi")) :=
  ⟨rfl, singleton_conversation_verbatim
    ⟨none, [⟨"assistant", MsgContent.str "hi", [], none⟩], false⟩
    ⟨"assistant", MsgContent.str "hi", [], none⟩ rfl⟩

/-- Claim C8: the usage the non-streaming assembler reports always
satisfies total = prompt + completion; `extractUsage` satisfies the same
identity on every event and yields zeros when the usage field is absent
(it is a total function, hence never fails). -/
theorem usage_accounting_invariant (gen : Nat → String) (cid model : String)
    (es : List ClaudeMessage) (m : ClaudeMessage) :
    ((handleNonStreamingRequest gen cid model es).usage.total_tokens =
        (handleNonStreamingRequest gen cid model es).usage.prompt_tokens +
          (handleNonStreamingRequest gen cid model es).usage.completion_tokens) ∧
      ((extractUsage m).total_tokens =
        (extractUsage m).prompt_tokens + (extractUsage m).completion_tokens) ∧
      (m.usage = none → extractUsage m = ⟨0, 0, 0⟩) := by
  refine ⟨?_, rfl, ?_⟩
  · rw [handleNS_run, usage_build]
    exact lastUsage_inv es ⟨0, 0, 0⟩ rfl
  · intro h
    unfold extractUsage
    rw [h]
    rfl

lemma joinSep_blank_ne_empty (t : String) (ts : List String) (h : t.isEmpty = false) :
    joinSep "\n\n" (t :: ts) ≠ "" := by
  cases ts with
  | nil =>
    intro he
    have ht : t = "" := he
    rw [ht] at h
    exact absurd h (by decide)
  | cons u us =>
    intro he
    have hj : joinSep "\n\n" (t :: u :: us) = t ++ "\n\n" ++ joinSep "\n\n" (u :: us) := rfl
    rw [hj] at he
    have hl := congrArg String.length he
    rw [String.length_append, String.length_append] at hl
    have h2 : ("\n\n" : String).length = 2 := rfl
    have h0 : ("" : String).length = 0 := rfl
    rw [h2, h0] at hl
    omega

/-- Claim C9: the non-streaming completion's content is the collected
non-empty text parts joined by blank lines, explicitly absent (never the
empty string) when no text part was collected; finish_reason is
"tool_calls" exactly when some tool call was collected, else "stop". -/
theorem nonstreaming_final_content (gen : Nat → String) (cid model : String)
    (es : List ClaudeMessage) :
    (streamTexts (extractedStream gen es 0) = [] →
        completionContent (handleNonStreamingRequest gen cid model es) = none) ∧
      (streamTexts (extractedStream gen es 0) ≠ [] →
        completionContent (handleNonStreamingRequest gen cid model es) =
            some (joinSep "\n\n" (streamTexts (extractedStream gen es 0))) ∧
          joinSep "\n\n" (streamTexts (extractedStream gen es 0)) ≠ "") ∧
      (completionFinishReason (handleNonStreamingRequest gen cid model es) =
        if streamCalls (extractedStream gen es 0) = [] then "stop" else "tool_calls") := by
  rw [handleNS_run]
  refine ⟨?_, ?_, ?_⟩
  · intro h
    rw [completionContent_build, h]
    rfl
  · intro h
    constructor
    · rw [completionContent_build, if_pos (List.length_pos.mpr h)]
    · obtain ⟨t, ts, ht⟩ : ∃ t ts, streamTexts (extractedStream gen es 0) = t :: ts := by
        cases h' : streamTexts (extractedStream gen es 0) with
        | nil => exact absurd h' h
        | cons t ts => exact ⟨t, ts, rfl⟩
      have htmem : t ∈ streamTexts (extractedStream gen es 0) := by
        rw [ht]
        exact List.mem_cons_self t ts
      have htne : t.isEmpty = false := by
        unfold streamTexts at htmem
        have := List.of_mem_filter htmem
        cases hie : t.isEmpty with
        | false => rfl
        | true => rw [hie] at this; exact absurd this (by decide)
      rw [ht]
      exact joinSep_blank_ne_empty t ts htne
  · rw [completionFinishReason_build]
    by_cases hc : streamCalls (extractedStream gen es 0) = []
    · rw [if_pos hc, hc]
      rfl
    · have hd : dedupById [] (streamCalls (extractedStream gen es 0)) ≠ [] := by
        intro hx
        exact hc ((dedupById_nil_iff _).mp hx)
      rw [if_neg hc, if_pos (List.length_pos.mpr hd)]

/-- No data chunk is an error write. -/
lemma chunks_filter_error (cs : List OpenAIChatCompletionChunk) :
    (cs.map SSEWrite.chunk).filter isErrorWrite = [] := by
  rw [List.filter_eq_nil_iff]
  intro a ha
  obtain ⟨c, _, hc⟩ := List.mem_map.mp ha
  rw [← hc]
  simp [isErrorWrite]

/-- The exact wire format of the error chunk. -/
lemma renderWrite_error (msg : String) :
    renderWrite (SSEWrite.error msg) =
      "data: \x7b\"error\":\x7b\"message\":" ++ jsonQuote msg ++
        ",\"type\":\"internal_error\",\"param\":null,\"code\":\"stream_error\"\x7d\x7d" ++ "\n\n" := by
  have h1 : jsonQuote "error" = "\"error\"" := rfl
  have h2 : jsonQuote "message" = "\"message\"" := rfl
  have h3 : jsonQuote "type" = "\"type\"" := rfl
  have h4 : jsonQuote "internal_error" = "\"internal_error\"" := rfl
  have h5 : jsonQuote "param" = "\"param\"" := rfl
  have h6 : jsonQuote "code" = "\"code\"" := rfl
  have h7 : jsonQuote "stream_error" = "\"stream_error\"" := rfl
  simp [renderWrite, errorChunkJson, Json.stringify, stringifyFields, h1, h2, h3, h4, h5, h6, h7,
    String.append_assoc]
  simp only [← String.append_assoc]
  congr 2

/-- Claim C3: every streaming response, normal or failed, ends with the
literal terminator "data: [DONE]\n\n"; a mid-stream backend error yields
exactly one error-shaped chunk (message plus fixed type/code), written
immediately before the terminator, and a normal run yields none. -/
theorem streaming_stream_termination (gen : Nat → String) (cid model : String)
    (events : List ClaudeMessage) (outcome : BackendOutcome) :
    ((handleStreamingRequest gen cid model ⟨events, outcome⟩).getLast? = some SSEWrite.done) ∧
      renderWrite SSEWrite.done = "data: [DONE]\n\n" ∧
      (∀ msg, outcome = BackendOutcome.err msg →
        (handleStreamingRequest gen cid model ⟨events, outcome⟩).filter isErrorWrite =
            [SSEWrite.error msg] ∧
          (∃ pre, handleStreamingRequest gen cid model ⟨events, outcome⟩ =
            pre ++ [SSEWrite.error msg, SSEWrite.done]) ∧
          renderWrite (SSEWrite.error msg) =
            "data: \x7b\"error\":\x7b\"message\":" ++ jsonQuote msg ++
              ",\"type\":\"internal_error\",\"param\":null,\"code\":\"stream_error\"\x7d\x7d" ++
              "\n\n") ∧
      (outcome = BackendOutcome.ok →
        (handleStreamingRequest gen cid model ⟨events, outcome⟩).filter isErrorWrite = []) := by
  obtain ⟨cs, hcs⟩ := streamFold_chunks gen cid model events
    ⟨[SSEWrite.chunk (buildInitialChunk cid model)], false, [], 0⟩
  cases outcome with
  | ok =>
    have hw : handleStreamingRequest gen cid model ⟨events, BackendOutcome.ok⟩ =
        ([SSEWrite.chunk (buildInitialChunk cid model)] ++ cs.map SSEWrite.chunk ++
          [SSEWrite.chunk (buildFinalChunk cid model
            (events.foldl (streamStep gen cid model)
              ⟨[SSEWrite.chunk (buildInitialChunk cid model)], false, [], 0⟩).hasToolCalls)]) ++
          [SSEWrite.done] := by
      simp only [handleStreamingRequest, sendDone, sendChunk, List.nil_append]
      rw [hcs]
    refine ⟨?_, rfl, ?_, ?_⟩
    · rw [hw]
      exact List.getLast?_concat _
    · intro msg hmsg
      exact BackendOutcome.noConfusion hmsg
    · intro _
      rw [hw]
      simp [List.filter_append, chunks_filter_error, isErrorWrite, List.filter_cons, sendChunk]
  | err msgE =>
    have hw : handleStreamingRequest gen cid model ⟨events, BackendOutcome.err msgE⟩ =
        ([SSEWrite.chunk (buildInitialChunk cid model)] ++ cs.map SSEWrite.chunk) ++
          [SSEWrite.error msgE, SSEWrite.done] := by
      simp only [handleStreamingRequest, sendDone, sendError, sendChunk, List.nil_append]
      rw [hcs]
      simp [List.append_assoc]
    refine ⟨?_, rfl, ?_, ?_⟩
    · rw [hw]
      rw [show (([SSEWrite.chunk (buildInitialChunk cid model)] ++ cs.map SSEWrite.chunk) ++
          [SSEWrite.error msgE, SSEWrite.done]) =
          (([SSEWrite.chunk (buildInitialChunk cid model)] ++ cs.map SSEWrite.chunk) ++
            [SSEWrite.error msgE]) ++ [SSEWrite.done] by simp]
      exact List.getLast?_concat _
    · intro msg hmsg
      have hm : msgE = msg := by
        injection hmsg
      subst hm
      refine ⟨?_, ⟨[SSEWrite.chunk (buildInitialChunk cid model)] ++ cs.map SSEWrite.chunk, hw⟩,
        renderWrite_error msgE⟩
      rw [hw]
      simp [List.filter_append, chunks_filter_error, isErrorWrite, List.filter_cons, sendChunk]
    · intro hmsg
      exact BackendOutcome.noConfusion hmsg

/-- Counterexample to claim C4: a conversation whose two non-system
messages are both assistant messages produces a prompt containing no
"Current request:" marker at all. -/
theorem current_request_marker_counterexample :
    convertOpenAIToClaude ⟨none, [⟨"assistant", MsgContent.str "a", [], none⟩,
        ⟨"assistant", MsgContent.str "b", [], none⟩], false⟩ =
      Except.ok ⟨"Assistant: a\n\nAssistant: b", none⟩ ∧
    1 < ((⟨none, [⟨"assistant", MsgContent.str "a", [], none⟩,
        ⟨"assistant", MsgContent.str "b", [], none⟩], false⟩ : OpenAIChatRequest).messages.filter
          (fun m => !(m.role == "system"))).length ∧
    ¬ ∃ pre post : String,
        "Assistant: a\n\nAssistant: b" = pre ++ "Current request:" ++ post := by
  refine ⟨rfl, by decide, ?_⟩
  rintro ⟨pre, post, hsplit⟩
  have hdata := congrArg String.data hsplit
  rw [String.data_append, String.data_append] at hdata
  have hC : 'C' ∈ "Assistant: a\n\nAssistant: b".data := by
    rw [hdata]
    exact List.mem_append_left _ (List.mem_append_right _ (by decide))
  exact absurd hC (by decide)

/-- Claim C4 (amended): when the non-system messages number more than one
and include at least one user-role message, the flattened prompt ends with
the literal marker "Current request:" immediately followed (after its
newline) by the last user message's extracted text. -/
theorem current_request_marker_with_user (request : OpenAIChatRequest) (kk : Nat)
    (hlen : 1 < (request.messages.filter (fun m => !(m.role == "system"))).length)
    (hk : findLastIndex (fun m => m.role == "user")
        (request.messages.filter (fun m => !(m.role == "system"))) = some kk) :
    ∃ cp pre, convertOpenAIToClaude request = Except.ok cp ∧
      cp.prompt = pre ++ ("Current request:\n" ++
        getTextContent (((request.messages.filter (fun m => !(m.role == "system"))).getD kk
          default).content)) := by
  have hne : request.messages.isEmpty = false := by
    cases hm : request.messages with
    | nil => rw [hm] at hlen; simp at hlen
    | cons a l => rfl
  have hconv := partitionMessages_snd request.messages
  simp only [convertOpenAIToClaude]
  rw [if_neg (by simp [hne]), hconv]
  have hcond : ((request.messages.filter (fun m => !(m.role == "system"))).length == 1 &&
      ((request.messages.filter (fun m => !(m.role == "system"))).headD default).role ==
        "user") = false := by
    have h1 : ((request.messages.filter (fun m => !(m.role == "system"))).length == 1) = false :=
      beq_eq_false_iff_ne.mpr (Nat.ne_of_gt hlen)
    rw [h1, Bool.false_and]
  rw [if_neg (by rw [hcond]; exact fun hx => Bool.noConfusion hx)]
  obtain ⟨pre, hp⟩ := formatConversation_marker
    (request.messages.filter (fun m => !(m.role == "system"))) kk hlen hk
  exact ⟨⟨formatConversation (request.messages.filter (fun m => !(m.role == "system"))),
    (partitionMessages request.messages).1⟩, pre, rfl, hp⟩

/-- Witness for the amended claim C4 on a three-message conversation. -/
theorem current_request_marker_with_user_witness :
    (1 < ((⟨none, [⟨"user", MsgContent.str "a", [], none⟩,
          ⟨"assistant", MsgContent.str "b", [], none⟩,
          ⟨"user", MsgContent.str "c", [], none⟩], false⟩ : OpenAIChatRequest).messages.filter
            (fun m => !(m.role == "system"))).length) ∧
      findLastIndex (fun m => m.role == "user")
        ((⟨none, [⟨"user", MsgContent.str "a", [], none⟩,
          ⟨"assistant", MsgContent.str "b", [], none⟩,
          ⟨"user", MsgContent.str "c", [], none⟩], false⟩ : OpenAIChatRequest).messages.filter
            (fun m => !(m.role == "system"))) = some 2 ∧
      (∃ cp pre, convertOpenAIToClaude
          ⟨none, [⟨"user", MsgContent.str "a", [], none⟩,
            ⟨"assistant", MsgContent.str "b", [], none⟩,
            ⟨"user", MsgContent.str "c", [], none⟩], false⟩ = Except.ok cp ∧
        cp.prompt = pre ++ ("Current request:\n" ++
          getTextContent ((((⟨none, [⟨"user", MsgContent.str "a", [], none⟩,
            ⟨"assistant", MsgContent.str "b", [], none⟩,
            ⟨"user", MsgContent.str "c", [], none⟩], false⟩ : OpenAIChatRequest).messages.filter
              (fun m => !(m.role == "system"))).getD 2 default).content))) :=
  ⟨by decide, rfl, current_request_marker_with_user
    ⟨none, [⟨"user", MsgContent.str "a", [], none⟩,
      ⟨"assistant", MsgContent.str "b", [], none⟩,
      ⟨"user", MsgContent.str "c", [], none⟩], false⟩ 2 (by decide) rfl⟩

/-- Counterexample to claim C7: an AssistantContent event whose single
content block is a tool_use block with no tool name yields zero
ToolCallRefs, not one per tool_use block. -/
theorem extract_content_nameless_tooluse_counterexample :
    (extractContent genDefault
        ⟨"assistant", none, some ⟨"assistant", [⟨"tool_use", none, none, none, none⟩]⟩, none⟩
        0).1.toolCalls.length = 0 ∧
      (([⟨"tool_use", none, none, none, none⟩] :
          List ClaudeContentBlock).countP (fun b => b.type == "tool_use")) = 1 ∧
      (0 : Nat) ≠ 1 :=
  ⟨rfl, rfl, by decide⟩

/-- Claim C7 (amended): `extractContent` equals the spec-side description
`extractContentSpec`: text blocks with non-empty text contribute their
text joined with newlines in block order; tool_use blocks carrying a
non-empty tool name become one ToolCallRef each, in block order, with id
the block's id when non-empty and a freshly generated id otherwise, and
arguments the JSON serialization of the input object (`\x7b\x7d` when
absent); all other blocks — including tool_use blocks with no name and
text blocks with empty text — are ignored. -/
theorem extract_content_characterization (gen : Nat → String) (m : ClaudeMessage) (k : Nat) :
    extractContent gen m k = extractContentSpec gen m k :=
  extractContent_eq_spec gen m k

lemma streamCalls_eq_flatten (gen : Nat → String) (es : List ClaudeMessage) :
    streamCalls (extractedStream gen es 0) = (extractedToolCallLists gen es).flatten := rfl

/-- Claim C1: if the same tool-call id occurs in two different
AssistantContent events, the non-streaming completion's tool-call list
contains exactly one entry with that id, equal to the first occurrence in
the extracted stream (so the first occurrence's name and arguments win),
and the whole list is a subsequence of the extracted stream, preserving
first-seen order. -/
theorem nonstreaming_toolcall_dedup (gen : Nat → String) (cid model : String)
    (es : List ClaudeMessage) (x : String) (i j : Nat)
    (hij : i < j) (hj : j < (extractedToolCallLists gen es).length)
    (hxi : x ∈ ((extractedToolCallLists gen es).getD i []).map OpenAIToolCall.id)
    (hxj : x ∈ ((extractedToolCallLists gen es).getD j []).map OpenAIToolCall.id) :
    ((completionToolCalls (handleNonStreamingRequest gen cid model es)).filter
        (fun tc => tc.id == x)).length = 1 ∧
      (completionToolCalls (handleNonStreamingRequest gen cid model es)).find?
          (fun tc => tc.id == x) =
        (streamCalls (extractedStream gen es 0)).find? (fun tc => tc.id == x) ∧
      List.Sublist (completionToolCalls (handleNonStreamingRequest gen cid model es))
        (streamCalls (extractedStream gen es 0)) := by
  have hLtc : completionToolCalls (handleNonStreamingRequest gen cid model es) =
      dedupById [] (streamCalls (extractedStream gen es 0)) := by
    rw [handleNS_run, completionToolCalls_build]
  have hi : i < (extractedToolCallLists gen es).length := lt_trans hij hj
  have hxa : x ∈ (streamCalls (extractedStream gen es 0)).map OpenAIToolCall.id := by
    obtain ⟨tc, htc, hid⟩ := List.mem_map.mp hxi
    refine List.mem_map.mpr ⟨tc, ?_, hid⟩
    rw [streamCalls_eq_flatten]
    refine List.mem_flatten.mpr ⟨(extractedToolCallLists gen es).getD i [], ?_, htc⟩
    rw [List.getD_eq_getElem?_getD, List.getElem?_eq_getElem hi]
    exact List.getElem_mem hi
  obtain ⟨tc0, htc0⟩ : ∃ tc0,
      (streamCalls (extractedStream gen es 0)).find? (fun tc => tc.id == x) = some tc0 := by
    have hsome : ((streamCalls (extractedStream gen es 0)).find?
        (fun tc => tc.id == x)).isSome = true := by
      refine List.find?_isSome.mpr ?_
      obtain ⟨tc, htc, hid⟩ := List.mem_map.mp hxa
      exact ⟨tc, htc, beq_iff_eq.mpr hid⟩
    cases hfind : (streamCalls (extractedStream gen es 0)).find? (fun tc => tc.id == x) with
    | none => rw [hfind] at hsome; exact absurd hsome (by simp)
    | some tc0 => exact ⟨tc0, rfl⟩
  refine ⟨?_, ?_, ?_⟩
  · rw [hLtc, dedupById_filter_find x _ [] rfl, htc0]
    rfl
  · rw [hLtc, dedupById_find x _ [] rfl]
  · rw [hLtc]
    exact dedupById_sublist _ []

/-- Witness for claim C1: the id "dup" appears in both events of
`[evDup1, evDup2]`; the assembled completion keeps exactly the first. -/
theorem nonstreaming_toolcall_dedup_witness :
    ((0 : Nat) < 1 ∧ 1 < (extractedToolCallLists genDefault [evDup1, evDup2]).length ∧
      "dup" ∈ ((extractedToolCallLists genDefault [evDup1, evDup2]).getD 0 []).map
        OpenAIToolCall.id ∧
      "dup" ∈ ((extractedToolCallLists genDefault [evDup1, evDup2]).getD 1 []).map
        OpenAIToolCall.id) ∧
      (((completionToolCalls (handleNonStreamingRequest genDefault "cid" "model"
            [evDup1, evDup2])).filter (fun tc => tc.id == "dup")).length = 1 ∧
        (completionToolCalls (handleNonStreamingRequest genDefault "cid" "model"
            [evDup1, evDup2])).find? (fun tc => tc.id == "dup") =
          (streamCalls (extractedStream genDefault [evDup1, evDup2] 0)).find?
            (fun tc => tc.id == "dup") ∧
        List.Sublist (completionToolCalls (handleNonStreamingRequest genDefault "cid" "model"
            [evDup1, evDup2]))
          (streamCalls (extractedStream genDefault [evDup1, evDup2] 0))) :=
  ⟨⟨by decide, by decide, by decide, by decide⟩,
    nonstreaming_toolcall_dedup genDefault "cid" "model" [evDup1, evDup2] "dup" 0 1
      (by decide) (by decide) (by decide) (by decide)⟩

/-- Claim C2: for a backend sequence of events each carrying exactly one
fresh-id tool-use block and no text, the streaming handler emits exactly
N+2 data chunks (initial role chunk, one tool-call chunk per event, final
chunk) followed by the terminator. -/
theorem streaming_tool_chunk_count (gen : Nat → String) (cid model : String)
    (es : List ClaudeMessage)
    (hshape : ∀ m ∈ es, toolOnlyEventShape m = true)
    (hfresh : (es.map eventToolId).Nodup) :
    ∃ cs : List OpenAIChatCompletionChunk,
      handleStreamingRequest gen cid model ⟨es, BackendOutcome.ok⟩ =
        cs.map SSEWrite.chunk ++ [SSEWrite.done] ∧
      cs.length = es.length + 2 := by
  obtain ⟨cs, hcs, hlen⟩ := streamFold_toolOnly gen cid model es
    ⟨[SSEWrite.chunk (buildInitialChunk cid model)], false, [], 0⟩ hshape hfresh
    (fun m hm => rfl)
  refine ⟨buildInitialChunk cid model :: (cs ++ [buildFinalChunk cid model
    (es.foldl (streamStep gen cid model)
      ⟨[SSEWrite.chunk (buildInitialChunk cid model)], false, [], 0⟩).hasToolCalls]), ?_, ?_⟩
  · simp only [handleStreamingRequest, sendDone, sendChunk, List.nil_append]
    rw [hcs]
    simp [List.append_assoc]
  · simp [hlen]

/-- Witness for claim C2 on two fresh-id tool events: 2 events produce 4
data chunks plus the terminator. -/
theorem streaming_tool_chunk_count_witness :
    ((∀ m ∈ [evToolA, evToolB], toolOnlyEventShape m = true) ∧
      ([evToolA, evToolB].map eventToolId).Nodup) ∧
      ∃ cs : List OpenAIChatCompletionChunk,
        handleStreamingRequest genDefault "cid" "model" ⟨[evToolA, evToolB], BackendOutcome.ok⟩ =
          cs.map SSEWrite.chunk ++ [SSEWrite.done] ∧
        cs.length = [evToolA, evToolB].length + 2 :=
  ⟨⟨by decide, by decide⟩,
    streaming_tool_chunk_count genDefault "cid" "model" [evToolA, evToolB]
      (by decide) (by decide)⟩

end CCExpress
